import Mathlib

/-!
Verification of the pdfjoiner backend core: a shallow embedding of the
session-scoped file/job registry (`app/services/file_manager.py`), the PDF
processor (`app/services/pdf_processor.py`), the thumbnail cache
(`app/services/thumbnail_generator.py`), the merge / job-status routes
(`app/routes/merge.py`), the batch-thumbnail route (`app/routes/preview.py`)
and the upload route (`app/routes/upload.py`), together with theorems about
reconstruction-after-restart, merge ordering, validation, caching, deletion
and garbage collection.

Filenames and identifiers are modelled as lists of characters; the disk is an
association list from session identifiers to folders; Python dictionaries are
association lists with insert-or-overwrite semantics.  Exceptions raised by
the PDF primitives are modelled with `Option` (a `none` page count means the
primitive raises), and an unlink that fails is a disk file marked `locked`.
-/

namespace PdfJoiner

/-- Filenames, identifiers and path components, modelled as character lists. -/
abbrev Name := List Char

/-- Character list of a string literal, used to write concrete names. -/
def str (s : String) : Name := s.data

/-! ### Python string and path primitives -/

/-- Auxiliary accumulator version of Python `str.split(sep)`. -/
def pysplitAux (sep : Char) : Name → Name → List Name
  | [], acc => [acc.reverse]
  | c :: cs, acc =>
    if c = sep then acc.reverse :: pysplitAux sep cs []
    else pysplitAux sep cs (c :: acc)

/-- Python `str.split(sep)` for a one-character separator. -/
def pysplit (sep : Char) (s : Name) : List Name := pysplitAux sep s []

/-- Python `sep.join(parts)` for a one-character separator. -/
def joinWith (sep : Char) : List Name → Name
  | [] => []
  | x :: xs => x ++ (xs.map (fun p => sep :: p)).flatten

/-- Index of the last occurrence of a character (Python `str.rfind`). -/
def lastIdxOf (c : Char) : Name → Option Nat
  | [] => none
  | a :: s =>
    match lastIdxOf c s with
    | some i => some (i + 1)
    | none => if a = c then some 0 else none

/-- Extension of a path name, after `pathlib.PurePath.suffix`: the part from
the last dot on, empty when the last dot is the leading character or the
final character. -/
def pySuffix (s : Name) : Name :=
  match lastIdxOf '.' s with
  | some i => if 0 < i ∧ i < s.length - 1 then s.drop i else []
  | none => []

/-- Stem of a path name, after `pathlib.PurePath.stem`: the name with
`pySuffix` removed. -/
def pyStem (s : Name) : Name :=
  match lastIdxOf '.' s with
  | some i => if 0 < i ∧ i < s.length - 1 then s.take i else s
  | none => s

/-- Boolean prefix test on character lists. -/
def beginsWith : Name → Name → Bool
  | [], _ => true
  | _ :: _, [] => false
  | a :: p, b :: s => a = b && beginsWith p s

/-- Boolean suffix test on character lists. -/
def endsWith (suf s : Name) : Bool := beginsWith suf.reverse s.reverse

/-! ### Association lists with Python-dict semantics -/

/-- Dictionary lookup (`d.get(k)` / `d[k]`). -/
def lookupA (k : Name) : List (Name × β) → Option β
  | [] => none
  | (k', v) :: t => if k' = k then some v else lookupA k t

/-- Dictionary assignment `d[k] = v`: overwrite in place or append. -/
def setA (k : Name) (v : β) : List (Name × β) → List (Name × β)
  | [] => [(k, v)]
  | (k', v') :: t => if k' = k then (k, v) :: t else (k', v') :: setA k v t

/-- Dictionary deletion `del d[k]`: remove the entry with the key. -/
def eraseA (k : Name) : List (Name × β) → List (Name × β)
  | [] => []
  | (k', v') :: t => if k' = k then t else (k', v') :: eraseA k t

/-- Update the value stored at a key, leaving other entries alone. -/
def mapA (k : Name) (g : β → β) : List (Name × β) → List (Name × β)
  | [] => []
  | (k', v) :: t => if k' = k then (k, g v) :: t else (k', v) :: mapA k g t

/-! ### Basic lemmas on the primitives -/

theorem pysplitAux_ne_nil (sep : Char) (s acc : Name) : pysplitAux sep s acc ≠ [] := by
  induction s generalizing acc with
  | nil => simp [pysplitAux]
  | cons c cs ih =>
    simp only [pysplitAux]
    split
    · simp
    · exact ih _

theorem pysplitAux_sep_split (sep : Char) (p rest acc : Name) (hp : sep ∉ p) :
    pysplitAux sep (p ++ sep :: rest) acc = (acc.reverse ++ p) :: pysplit sep rest := by
  induction p generalizing acc with
  | nil => simp [pysplitAux, pysplit]
  | cons a p ih =>
    have ha : a ≠ sep := by
      intro h; exact hp (h ▸ List.mem_cons_self a p)
    have hp' : sep ∉ p := fun h => hp (List.mem_cons_of_mem a h)
    simp only [List.cons_append, pysplitAux, if_neg ha, List.append_eq]
    rw [ih (a :: acc) hp']
    simp [List.reverse_cons, List.append_assoc]

/-- Splitting a string of the form `p ++ sep :: rest` with `sep` absent from
`p` yields `p` first. -/
theorem pysplit_sep_split (sep : Char) (p rest : Name) (hp : sep ∉ p) :
    pysplit sep (p ++ sep :: rest) = p :: pysplit sep rest := by
  simpa [pysplit] using pysplitAux_sep_split sep p rest [] hp

theorem joinWith_pysplitAux (sep : Char) (s acc : Name) :
    joinWith sep (pysplitAux sep s acc) = acc.reverse ++ s := by
  induction s generalizing acc with
  | nil => simp [pysplitAux, joinWith]
  | cons c cs ih =>
    simp only [pysplitAux]
    by_cases hc : c = sep
    · subst hc
      simp only [if_pos rfl]
      obtain ⟨y, ys, hys⟩ := List.exists_cons_of_ne_nil (pysplitAux_ne_nil c cs [])
      have ihy := ih ([] : Name)
      rw [hys] at ihy ⊢
      simp only [joinWith, List.map_cons, List.flatten_cons, List.reverse_nil,
        List.nil_append] at ihy ⊢
      rw [← ihy]
      simp [List.append_assoc]
    · simp only [if_neg hc]
      rw [ih (c :: acc)]
      simp [List.reverse_cons, List.append_assoc]

/-- Rejoining the parts of a split restores the original string. -/
theorem joinWith_pysplit (sep : Char) (s : Name) :
    joinWith sep (pysplit sep s) = s := by
  simpa [pysplit] using joinWith_pysplitAux sep s []

theorem lastIdxOf_append_of_some (c : Char) (xs ys : Name) (i : Nat)
    (h : lastIdxOf c ys = some i) :
    lastIdxOf c (xs ++ ys) = some (xs.length + i) := by
  induction xs with
  | nil => simpa using h
  | cons a xs ih =>
    have hstep : lastIdxOf c ((a :: xs) ++ ys) =
        match lastIdxOf c (xs ++ ys) with
        | some j => some (j + 1)
        | none => if a = c then some 0 else none := rfl
    rw [hstep, ih]
    simp only [List.length_cons]
    congr 1
    omega

theorem lastIdxOf_of_not_mem (c : Char) (s : Name) (h : c ∉ s) :
    lastIdxOf c s = none := by
  induction s with
  | nil => rfl
  | cons a s ih =>
    have ha : a ≠ c := fun hac => h (hac ▸ List.mem_cons_self a s)
    have hs : c ∉ s := fun hm => h (List.mem_cons_of_mem a hm)
    simp [lastIdxOf, ih hs, ha]

theorem beginsWith_append_self (p t : Name) : beginsWith p (p ++ t) = true := by
  induction p with
  | nil => rfl
  | cons a p ih => simp [beginsWith, ih]

theorem endsWith_append_self (suf pre : Name) : endsWith suf (pre ++ suf) = true := by
  simp only [endsWith, List.reverse_append]
  exact beginsWith_append_self _ _

/-- On a name of the shape `pre ++ ".pdf"` with `pre` nonempty, the pathlib
suffix is `".pdf"`. -/
theorem pySuffix_pdf (pre : Name) (hpre : pre ≠ []) :
    pySuffix (pre ++ str ".pdf") = str ".pdf" := by
  have hdot : lastIdxOf '.' (str ".pdf") = some 0 := by decide
  have hidx := lastIdxOf_append_of_some '.' pre (str ".pdf") 0 hdot
  have hlen : 0 < pre.length := List.length_pos.mpr hpre
  simp only [pySuffix, hidx, Nat.add_zero]
  rw [if_pos]
  · exact List.drop_left pre (str ".pdf")
  · constructor
    · exact hlen
    · simp [str, List.length_append]

/-- On a name of the shape `pre ++ ".pdf"` with `pre` nonempty, the pathlib
stem is `pre`. -/
theorem pyStem_pdf (pre : Name) (hpre : pre ≠ []) :
    pyStem (pre ++ str ".pdf") = pre := by
  have hdot : lastIdxOf '.' (str ".pdf") = some 0 := by decide
  have hidx := lastIdxOf_append_of_some '.' pre (str ".pdf") 0 hdot
  have hlen : 0 < pre.length := List.length_pos.mpr hpre
  simp only [pyStem, hidx, Nat.add_zero]
  rw [if_pos]
  · exact List.take_left pre (str ".pdf")
  · constructor
    · exact hlen
    · simp [str, List.length_append]

theorem lookupA_mapA_self (k : Name) (g : β → β) (l : List (Name × β)) (v : β)
    (h : lookupA k l = some v) : lookupA k (mapA k g l) = some (g v) := by
  induction l with
  | nil => simp [lookupA] at h
  | cons p t ih =>
    obtain ⟨k', v'⟩ := p
    by_cases hk : k' = k
    · subst hk
      simp [lookupA] at h
      subst h
      simp [mapA, lookupA]
    · simp only [lookupA, if_neg hk] at h
      simp [mapA, lookupA, if_neg hk, ih h]

theorem lookupA_eq_none_of_not_mem (k : Name) (l : List (Name × β))
    (h : k ∉ l.map Prod.fst) : lookupA k l = none := by
  induction l with
  | nil => rfl
  | cons p t ih =>
    obtain ⟨k', v'⟩ := p
    simp only [List.map_cons, List.mem_cons, not_or] at h
    have hne : k' ≠ k := fun hk => h.1 hk.symm
    simp [lookupA, hne, ih h.2]

theorem lookupA_setA_self (k : Name) (v : β) (l : List (Name × β)) :
    lookupA k (setA k v l) = some v := by
  induction l with
  | nil => simp [setA, lookupA]
  | cons p t ih =>
    obtain ⟨k', v'⟩ := p
    by_cases hk : k' = k
    · simp [setA, if_pos hk, lookupA]
    · simp [setA, if_neg hk, lookupA, if_neg hk, ih]

theorem setA_fresh (k : Name) (v : β) (l : List (Name × β))
    (h : lookupA k l = none) : setA k v l = l ++ [(k, v)] := by
  induction l with
  | nil => rfl
  | cons p t ih =>
    obtain ⟨k', v'⟩ := p
    by_cases hk : k' = k
    · simp [lookupA, if_pos hk] at h
    · simp only [lookupA, if_neg hk] at h
      simp [setA, if_neg hk, ih h]

theorem lookupA_append_none (k : Name) (l₁ l₂ : List (Name × β))
    (h₁ : lookupA k l₁ = none) (h₂ : lookupA k l₂ = none) :
    lookupA k (l₁ ++ l₂) = none := by
  induction l₁ with
  | nil => simpa using h₂
  | cons p t ih =>
    obtain ⟨k', v'⟩ := p
    by_cases hk : k' = k
    · simp [lookupA, if_pos hk] at h₁
    · simp only [lookupA, if_neg hk] at h₁
      simp [lookupA, if_neg hk, ih h₁]

theorem lookupA_eraseA_self (k : Name) (l : List (Name × β))
    (hnd : (l.map Prod.fst).Nodup) : lookupA k (eraseA k l) = none := by
  induction l with
  | nil => rfl
  | cons p t ih =>
    obtain ⟨k', v'⟩ := p
    simp only [List.map_cons, List.nodup_cons] at hnd
    by_cases hk : k' = k
    · subst hk
      simp only [eraseA, if_pos rfl]
      exact lookupA_eq_none_of_not_mem k' t hnd.1
    · simp [eraseA, if_neg hk, lookupA, if_neg hk, ih hnd.2]

theorem eraseA_length_of_mem (k : Name) (l : List (Name × β)) (v : β)
    (h : lookupA k l = some v) : (eraseA k l).length + 1 = l.length := by
  induction l with
  | nil => simp [lookupA] at h
  | cons p t ih =>
    obtain ⟨k', v'⟩ := p
    by_cases hk : k' = k
    · simp [eraseA, if_pos hk]
    · simp only [lookupA, if_neg hk] at h
      simp [eraseA, if_neg hk, ih h]

theorem lookupA_isSome_of_mem (l : List (Name × β)) (p : Name × β) (h : p ∈ l) :
    (lookupA p.1 l).isSome := by
  induction l with
  | nil => simp at h
  | cons q t ih =>
    obtain ⟨k', v'⟩ := q
    by_cases hk : k' = p.1
    · simp [lookupA, if_pos hk]
    · simp only [lookupA, if_neg hk]
      rcases List.mem_cons.mp h with h | h
      · exact absurd (congrArg Prod.fst h).symm hk
      · exact ih h

/-! ### Data model: disk and in-memory registry (`FileManager`) -/

/-- A file stored inside a session folder.  `pages` is the result of the
page-count primitive (`PDFProcessor.get_page_count`): `some n` when the PDF
is readable with `n` pages, `none` when the primitive raises.  `headerOk`
records whether the content passes the header/MIME check of
`FileValidator.validate_pdf`, and `locked` marks a file whose `unlink`
raises an `OSError`. -/
structure DiskFile where
  name : Name
  size : Nat
  pages : Option Nat
  headerOk : Bool
  locked : Bool
deriving DecidableEq

/-- A session directory on disk: its modification time and its files. -/
structure Folder where
  mtime : Int
  files : List DiskFile
deriving DecidableEq

/-- The upload root: session id to session directory. -/
abbrev Disk := List (Name × Folder)

/-- The metadata dictionary stored per file by `FileManager.add_file`
(`original_filename` always equals `filename` in the flows modelled here and
is omitted). -/
structure FileMeta where
  filename : Name
  page_count : Nat
  file_size : Nat
deriving DecidableEq

/-- In-memory per-file record: the stored file's name inside its session
folder plus the metadata dictionary. -/
structure FileInfo where
  path : Name
  metadata : FileMeta
deriving DecidableEq

/-- In-memory per-session record of `FileManager.sessions`. -/
structure Session where
  created_at : Int
  files : List (Name × FileInfo)
deriving DecidableEq

/-- The whole `FileManager` state: the in-memory session index plus the
upload root on disk. -/
structure FMState where
  sessions : List (Name × Session)
  disk : Disk
deriving DecidableEq

/-- `Path.glob("*.pdf")` match: the name ends in lowercase `.pdf` and, since
the pattern does not start with a dot, hidden names are not matched. -/
def globPdf (n : Name) : Bool :=
  endsWith (str ".pdf") n && !(n.headD ' ' = '.')

/-- `Path.glob(f"fileID_*")` match used by `get_file`: the name starts with
the file id followed by an underscore; hidden names are matched only when
the id itself starts with a dot. -/
def fileGlobMatch (fid n : Name) : Bool :=
  beginsWith (fid ++ ['_']) n && (!(n.headD ' ' = '.') || fid.headD ' ' = '.')

/-- Case-insensitive PDF-extension test, `path.suffix.lower() == ".pdf"`. -/
def isPdfIC (n : Name) : Bool :=
  (pySuffix n).map Char.toLower = str ".pdf"

/-- `mkdir(parents=True, exist_ok=True)` for a session directory. -/
def mkdirIfAbsent (now : Int) (sid : Name) (d : Disk) : Disk :=
  match lookupA sid d with
  | some _ => d
  | none => d ++ [(sid, ⟨now, []⟩)]

/-- `FileManager.create_session`: make the directory and (re)set the
in-memory record with an empty file dictionary. -/
def create_session (now : Int) (sid : Name) (st : FMState) : FMState :=
  { sessions := setA sid ⟨now, []⟩ st.sessions,
    disk := mkdirIfAbsent now sid st.disk }

/-- `FileManager.get_session_folder` returns a path whenever the session is
in memory or its directory exists; the caller separately tests existence on
disk. -/
def get_session_folder (st : FMState) (sid : Name) : Bool :=
  (lookupA sid st.sessions).isSome || (lookupA sid st.disk).isSome

/-- Update the files dictionary of an in-memory session. -/
def insertSessionFile (st : FMState) (sid fid : Name) (fi : FileInfo) : FMState :=
  { st with sessions := mapA sid (fun ss => { ss with files := setA fid fi ss.files }) st.sessions }

/-- `FileManager.add_file`. -/
def add_file (now : Int) (sid fid : Name) (path : Name) (meta : FileMeta)
    (st : FMState) : FMState :=
  let st1 := if (lookupA sid st.sessions).isNone then create_session now sid st else st
  insertSessionFile st1 sid fid ⟨path, meta⟩

/-- One step of the full-session reconstruction scan of
`FileManager.get_session_files`: a PDF-suffixed, underscore-bearing name is
split on the first underscore into `(fileID, filename)`; a raising
page-count primitive makes the file be skipped. -/
def restoreFromDisk (df : DiskFile) : Option (Name × FileInfo) :=
  if globPdf df.name then
    let st := pyStem df.name
    if '_' ∈ st then
      let parts := pysplit '_' st
      let fid := parts.headD []
      let fname := joinWith '_' parts.tail ++ pySuffix df.name
      match df.pages with
      | some pc => some (fid, ⟨df.name, ⟨fname, pc, df.size⟩⟩)
      | none => none
    else none
  else none

/-- The dictionary built by the reconstruction loop of `get_session_files`. -/
def restoreScan (files : List DiskFile) : List (Name × FileInfo) :=
  files.foldl (fun acc df =>
    match restoreFromDisk df with
    | some (fid, fi) => setA fid fi acc
    | none => acc) []

/-- Replace the files dictionary of a session (the reconstruction loop fills
the local dictionary and the session dictionary identically, both starting
empty on this path). -/
def setSessionFiles (st : FMState) (sid : Name) (fs : List (Name × FileInfo)) : FMState :=
  { st with sessions := mapA sid (fun ss => { ss with files := fs }) st.sessions }

/-- `FileManager.get_session_files`: the in-memory dictionary when the
session is in memory with a nonempty file dictionary, otherwise the
filesystem reconstruction scan (which repopulates memory). -/
def get_session_files (now : Int) (st : FMState) (sid : Name) :
    List (Name × FileInfo) × FMState :=
  match lookupA sid st.sessions with
  | some ss =>
    if ss.files ≠ [] then (ss.files, st)
    else
      match lookupA sid st.disk with
      | some folder =>
        let restored := restoreScan folder.files
        (restored, setSessionFiles st sid restored)
      | none => ([], st)
  | none =>
    match lookupA sid st.disk with
    | some folder =>
      let st1 := create_session now sid st
      let restored := restoreScan folder.files
      (restored, setSessionFiles st1 sid restored)
    | none => ([], st)

/-- The `(fileID, filename, pageCount)` triples of a listing. -/
def listTriples (fs : List (Name × FileInfo)) : List (Name × Name × Nat) :=
  fs.map (fun p => (p.1, p.2.metadata.filename, p.2.metadata.page_count))

/-- The single-file reconstruction scan of `FileManager.get_file` over the
session directory: the first `fileID_*` PDF match is restored (filename
recovered by dropping the id and the underscore); a raising page-count
primitive makes the scan continue with the next match. -/
def getFileScan (now : Int) (sid fid : Name) : List DiskFile → FMState →
    Option FileInfo × FMState
  | [], st => (none, st)
  | df :: rest, st =>
    if fileGlobMatch fid df.name && isPdfIC df.name then
      match df.pages with
      | some pc =>
        let fi : FileInfo := ⟨df.name, ⟨df.name.drop (fid.length + 1), pc, df.size⟩⟩
        let st1 := if (lookupA sid st.sessions).isNone then create_session now sid st else st
        (some fi, insertSessionFile st1 sid fid fi)
      | none => getFileScan now sid fid rest st
    else getFileScan now sid fid rest st

/-- `FileManager.get_file`: in-memory lookup first, filesystem
reconstruction on a miss. -/
def get_file (now : Int) (st : FMState) (sid fid : Name) :
    Option FileInfo × FMState :=
  let scan : Option FileInfo × FMState :=
    if get_session_folder st sid then
      match lookupA sid st.disk with
      | some folder => getFileScan now sid fid folder.files st
      | none => (none, st)
    else (none, st)
  match lookupA sid st.sessions with
  | some ss =>
    match lookupA fid ss.files with
    | some fi => (some fi, st)
    | none => scan
  | none => scan

/-- In-memory record of a file, `sessions[sid]["files"].get(fid)`. -/
def memFile (st : FMState) (sid fid : Name) : Option FileInfo :=
  (lookupA sid st.sessions).bind (fun ss => lookupA fid ss.files)

/-- Remove the first disk file with the given name (`Path.unlink`). -/
def delFile (n : Name) : List DiskFile → List DiskFile
  | [] => []
  | d :: t => if d.name = n then t else d :: delFile n t

/-- Write a disk file into a folder (`file.save`), overwriting by name. -/
def putFile (df : DiskFile) : List DiskFile → List DiskFile
  | [] => [df]
  | d :: t => if d.name = df.name then df :: t else d :: putFile df t

/-- Apply a file-list transformation to one session folder. -/
def modifyFolder (sid : Name) (g : List DiskFile → List DiskFile) (st : FMState) : FMState :=
  { st with disk := mapA sid (fun f => { f with files := g f.files }) st.disk }

/-- Whether the session folder contains a file with the given name
(`path.exists()`). -/
def diskHas (st : FMState) (sid n : Name) : Bool :=
  match lookupA sid st.disk with
  | some folder => folder.files.any (fun d => d.name = n)
  | none => false

/-- Remove an entry from a session's in-memory file dictionary. -/
def eraseSessionFile (st : FMState) (sid fid : Name) : FMState :=
  { st with sessions := mapA sid (fun ss => { ss with files := eraseA fid ss.files }) st.sessions }

/-- `FileManager.delete_file`: only the in-memory index is consulted; the
backing bytes are unlinked if present, and a raising unlink is caught and
reported as `False` with the index entry left in place. -/
def delete_file (st : FMState) (sid fid : Name) : Bool × FMState :=
  match lookupA sid st.sessions with
  | some ss =>
    match lookupA fid ss.files with
    | some fi =>
      match lookupA sid st.disk with
      | some folder =>
        match folder.files.find? (fun d => d.name = fi.path) with
        | some df =>
          if df.locked then (false, st)
          else (true, eraseSessionFile (modifyFolder sid (delFile fi.path) st) sid fid)
        | none => (true, eraseSessionFile st sid fid)
      | none => (true, eraseSessionFile st sid fid)
    | none => (false, st)
  | none => (false, st)

/-- `FileManager.cleanup_session`: remove the directory tree when it exists,
then the in-memory record; reports success. -/
def cleanup_session (st : FMState) (sid : Name) : Bool × FMState :=
  let st1 :=
    if get_session_folder st sid && (lookupA sid st.disk).isSome then
      { st with disk := eraseA sid st.disk }
    else st
  (true, { st1 with sessions := eraseA sid st1.sessions })

/-- The first loop of `FileManager.cleanup_old_sessions`, iterating over
`self.sessions.items()` while `cleanup_session` deletes entries from the very
dictionary being iterated.  CPython's dict iterator compares the dict's size
against the size captured at iterator creation on every advance and raises
`RuntimeError: dictionary changed size during iteration` on a mismatch;
the raise is modelled by `Except.error ()`. -/
def sweepLoop (cutoff : Int) (origSize : Nat) :
    List (Name × Session) → FMState → Nat → FMState × Except Unit Nat
  | items, st, count =>
    if st.sessions.length ≠ origSize then (st, Except.error ())
    else
      match items with
      | [] => (st, Except.ok count)
      | (sid, sd) :: rest =>
        if sd.created_at < cutoff then
          let r := cleanup_session st sid
          sweepLoop cutoff origSize rest r.2 (if r.1 then count + 1 else count)
        else sweepLoop cutoff origSize rest st count

/-- The orphaned-directory phase of `cleanup_old_sessions`: remove every
directory under the upload root whose age strictly exceeds the maximum. -/
def orphanSweep (now maxAge : Int) : Disk → Disk × Nat
  | [] => ([], 0)
  | (sid, f) :: rest =>
    let r := orphanSweep now maxAge rest
    if now - f.mtime > maxAge then (r.1, r.2 + 1)
    else ((sid, f) :: r.1, r.2)

/-- `FileManager.cleanup_old_sessions`: sweep expired in-memory sessions
(first loop), then orphaned directories.  A `RuntimeError` from the first
loop propagates out of the method (there is no handler around it), carrying
the state as mutated so far and never producing a count. -/
def cleanup_old_sessions (now maxAge : Int) (st : FMState) : FMState × Except Unit Nat :=
  let cutoff := now - maxAge
  match sweepLoop cutoff st.sessions.length st.sessions st 0 with
  | (st1, Except.error e) => (st1, Except.error e)
  | (st1, Except.ok c) =>
    let r := orphanSweep now maxAge st1.disk
    ({ st1 with disk := r.1 }, Except.ok (c + r.2))

/-! ### Thumbnail cache (`ThumbnailGenerator`) -/

/-- Thumbnail-side state: the set of cached thumbnail paths together with
the number of invocations of the rasterisation primitive
(`pdf2image.convert_from_path`). -/
structure ThumbState where
  cache : List Name
  renders : Nat
deriving DecidableEq

/-- The cache path of `generate_thumbnail_on_demand`:
`cacheDir/stem_page_N.jpg` built from the PDF's stem and the page number. -/
def cachePathOf (pdfName : Name) (pageNum : Nat) (cacheDir : Name) : Name :=
  cacheDir ++ '/' :: pyStem pdfName ++ str "_page_" ++ (Nat.repr pageNum).data ++ str ".jpg"

/-- `ThumbnailGenerator.generate_page_thumbnail`: always invokes the
rasterisation primitive; on success the thumbnail file exists at the output
path, on failure no file is produced. -/
def generate_page_thumbnail (renderOk : Bool) (outputPath : Name)
    (ts : ThumbState) : Bool × ThumbState :=
  if renderOk then (true, ⟨outputPath :: ts.cache, ts.renders + 1⟩)
  else (false, { ts with renders := ts.renders + 1 })

/-- `ThumbnailGenerator.generate_thumbnail_on_demand`: a plain existence
check on the deterministic cache path; only on a miss is the rendering
primitive invoked. -/
def generate_thumbnail_on_demand (renderOk : Bool) (pdfName : Name)
    (pageNum : Nat) (cacheDir : Name) (ts : ThumbState) :
    Option Name × ThumbState :=
  let cp := cachePathOf pdfName pageNum cacheDir
  if cp ∈ ts.cache then (some cp, ts)
  else
    let r := generate_page_thumbnail renderOk cp ts
    if r.1 then (some cp, r.2) else (none, r.2)

/-! ### File-id generation (`SecurityUtils.generate_file_id`) -/

/-- One character of the URL-safe base64 alphabet used by
`secrets.token_urlsafe`; index 63 is the underscore. -/
def b64char (n : Nat) : Char :=
  if n < 26 then Char.ofNat ('A'.toNat + n)
  else if n < 52 then Char.ofNat ('a'.toNat + (n - 26))
  else if n < 62 then Char.ofNat ('0'.toNat + (n - 52))
  else if n = 62 then '-' else '_'

/-- URL-safe base64 with the padding stripped, over a byte list:
`base64.urlsafe_b64encode(bs).rstrip(b"=")`. -/
def b64urlNoPad : List Nat → Name
  | a :: b :: c :: rest =>
    b64char (a / 4) :: b64char (a % 4 * 16 + b / 16) ::
      b64char (b % 16 * 4 + c / 64) :: b64char (c % 64) :: b64urlNoPad rest
  | [a, b] => [b64char (a / 4), b64char (a % 4 * 16 + b / 16), b64char (b % 16 * 4)]
  | [a] => [b64char (a / 4), b64char (a % 4 * 16)]
  | [] => []

/-- `SecurityUtils.generate_file_id` is `secrets.token_urlsafe(16)`: the
URL-safe base64 encoding, padding stripped, of sixteen random bytes. -/
def generate_file_id (randomBytes : List Nat) : Name := b64urlNoPad randomBytes

/-! ### PDF merge (`PDFProcessor.merge_pdfs`) -/

/-- `PDFProcessor._add_watermark_to_page` returns the page unchanged (the
source's watermark overlay is a stub that returns the page as-is). -/
def add_watermark_to_page (page : α) (_w : Name) : α := page

/-- The inner page loop of `merge_pdfs` for one `(reader, page_numbers)`
source: 1-indexed in-range pages are appended in their declared order
(watermarked when requested); out-of-range pages are logged and skipped. -/
def selectPages (wm : Option Name) (doc : List α) (pages : List Int) : List α :=
  pages.filterMap (fun p =>
    if 1 ≤ p ∧ p ≤ (doc.length : Int) then
      (doc.get? (p - 1).toNat).map (fun pg =>
        match wm with
        | some w => add_watermark_to_page pg w
        | none => pg)
    else none)

/-- `PDFProcessor.merge_pdfs`: concatenate the per-source selections in
source order and return the pages written together with the returned total
page count (page numbering and metadata do not alter the page sequence). -/
def merge_pdfs (wm : Option Name) (sources : List (List α × List Int)) :
    List α × Nat :=
  let out := (sources.map (fun s => selectPages wm s.1 s.2)).flatten
  (out, out.length)

/-- Declaration-order page sequence, written after the specification: each
selection contributes its pages in declared order, selections in request
order. -/
def specMergeOutput [Inhabited α] (sources : List (List α × List Int)) : List α :=
  (sources.map (fun s => s.2.map (fun p => s.1.getD (p - 1).toNat default))).flatten

/-! ### Page-range validation and the merge route -/

/-- A page entry of a merge selection as validated by
`FileValidator.validate_page_range`: an integer or a non-integer value. -/
inductive PageVal where
  | int (n : Int)
  | other
deriving DecidableEq

/-- `FileValidator.validate_page_range`: empty page lists, non-integer
entries and pages outside `[1, max_pages]` are invalid. -/
def validate_page_range (pages : List PageVal) (maxPages : Nat) : Bool :=
  if pages = [] then false
  else pages.all (fun v =>
    match v with
    | PageVal.int n => decide (1 ≤ n) && decide (n ≤ (maxPages : Int))
    | PageVal.other => false)

/-- A selection of the merge request body. -/
structure Selection where
  file_id : Name
  pages : List PageVal
deriving DecidableEq

/-- The merge request after schema parsing. -/
structure MergeReqM where
  session_id : Name
  selections : List Selection
  output_filename : Name
deriving DecidableEq

/-- Outcome of the merge route. -/
inductive MergeResult where
  | ok (totalPages : Nat)
  | err (code : Nat)
deriving DecidableEq

/-- The validation loop of the merge route (`routes/merge.py`): each
selection's file is resolved through `get_file` (missing file or missing
backing path give 404), then its pages are validated against the record's
page count (400 on failure); the accumulated `(path, pages)` sources are
returned only when every selection passes. -/
def validateSelections (now : Int) (sid : Name) :
    List Selection → FMState → List (Name × List PageVal) →
    Except (Nat × FMState) (List (Name × List PageVal) × FMState)
  | [], st, acc => Except.ok (acc.reverse, st)
  | sel :: rest, st, acc =>
    let r := get_file now st sid sel.file_id
    match r.1 with
    | none => Except.error (404, r.2)
    | some fi =>
      if !(diskHas r.2 sid fi.path) then Except.error (404, r.2)
      else if !(validate_page_range sel.pages fi.metadata.page_count) then
        Except.error (400, r.2)
      else validateSelections now sid rest r.2 ((fi.path, sel.pages) :: acc)

/-- Integer page list of a validated selection (after validation every entry
is an integer). -/
def intPages (ps : List PageVal) : List Int :=
  ps.filterMap (fun v => match v with | PageVal.int n => some n | PageVal.other => none)

/-- The page list of a stored PDF, each page identified by its source path
and 1-indexed position, as read by `PdfReader` during the merge. -/
def docOf (st : FMState) (sid path : Name) : List (Name × Nat) :=
  match lookupA sid st.disk with
  | some folder =>
    match folder.files.find? (fun d => d.name = path) with
    | some df =>
      match df.pages with
      | some pc => (List.range pc).map (fun i => (path, i + 1))
      | none => []
    | none => []
  | none => []

/-- Whether reading a validated source raises inside the merge (unreadable
or vanished file): the route then answers 500 and, since the output file is
opened only after all pages are read, nothing is written. -/
def sourceUnreadable (st : FMState) (sid path : Name) : Bool :=
  match lookupA sid st.disk with
  | some folder =>
    match folder.files.find? (fun d => d.name = path) with
    | some df => df.pages.isNone
    | none => true
  | none => true

/-- The merge route `POST /merge`: validate every selection before anything
is written; on success write the single artifact `jobID_outputFilename` into
the merged root (modelled as the flat list of artifact names) and answer
with the merged page count. -/
def merge_route (now : Int) (jobId : Name) (req : MergeReqM) (st : FMState)
    (merged : List Name) : MergeResult × FMState × List Name :=
  match validateSelections now req.session_id req.selections st [] with
  | Except.error e => (MergeResult.err e.1, e.2, merged)
  | Except.ok s =>
    let ofn := if endsWith (str ".pdf") req.output_filename then req.output_filename
      else req.output_filename ++ str ".pdf"
    let outName := jobId ++ '_' :: ofn
    if s.1.any (fun src => sourceUnreadable s.2 req.session_id src.1) then
      (MergeResult.err 500, s.2, merged)
    else
      let docs := s.1.map (fun src => (docOf s.2 req.session_id src.1, intPages src.2))
      let m := merge_pdfs (α := Name × Nat) none docs
      (MergeResult.ok m.2, s.2, outName :: merged)

/-! ### Batch thumbnails (`POST .../thumbnails/batch`) -/

/-- Outcome of the batch-thumbnail route, reduced to its acceptance
behaviour: an error status or the page list actually processed (the
per-page thumbnail results and timings are carried per processed page by
the real response and are elided here). -/
inductive BatchResult where
  | err (code : Nat)
  | ok (pages : List Int)
deriving DecidableEq

/-- The batch-thumbnail route body after file resolution
(`routes/preview.py`): an empty page list is a 400; a page list longer than
200 is silently cut to its first 200 entries; out-of-range pages among the
retained entries are a 400; otherwise exactly the retained pages are
processed. -/
def generate_batch_thumbnails (page_count : Nat) (pages : List Int) : BatchResult :=
  if pages = [] then BatchResult.err 400
  else
    let kept := pages.take 200
    if kept.any (fun p => p < 1 || p > (page_count : Int)) then BatchResult.err 400
    else BatchResult.ok kept

/-! ### Merge job registry and job-status lookup (`routes/merge.py`) -/

/-- In-memory job record of the `job_manager` dictionary. -/
structure JobInfo where
  session_id : Name
  output_name : Name
  output_filename : Name
  total_pages : Nat
  status : Name
deriving DecidableEq

/-- State seen by the job-status route: the in-memory job dictionary plus
the merged-output root (session subdirectory to artifact files). -/
structure JobState where
  jobs : List (Name × JobInfo)
  merged : List (Name × List DiskFile)
deriving DecidableEq

/-- Scan one session subdirectory for the first `jobID_*` PDF artifact. -/
def jobScanFolder (jobId : Name) (files : List DiskFile) : Option DiskFile :=
  files.find? (fun df => fileGlobMatch jobId df.name && isPdfIC df.name)

/-- Scan the merged root's session subdirectories in order for a `jobID_*`
PDF artifact. -/
def jobScan (jobId : Name) : List (Name × List DiskFile) → Option (Name × DiskFile)
  | [] => none
  | (sid, fs) :: rest =>
    match jobScanFolder jobId fs with
    | some df => some (sid, df)
    | none => jobScan jobId rest

/-- The job record reconstructed from an artifact: the output filename is
the artifact name with the `jobID_` prefix dropped, and the page count is
the page-count primitive's answer, defaulting to zero when it raises. -/
def restoreJob (jobId sid : Name) (df : DiskFile) : JobInfo :=
  { session_id := sid
    output_name := df.name
    output_filename := df.name.drop (jobId.length + 1)
    total_pages := df.pages.getD 0
    status := str "completed" }

/-- `GET /job/<job_id>/status`: in-memory lookup first; on a miss the merged
root is scanned and a found artifact is restored into the job dictionary;
`none` is the 404 answer. -/
def get_job_status (jobId : Name) (st : JobState) : Option JobInfo × JobState :=
  match lookupA jobId st.jobs with
  | some ji => (some ji, st)
  | none =>
    match jobScan jobId st.merged with
    | some r =>
      let ji := restoreJob jobId r.1 r.2
      (some ji, { st with jobs := setA jobId ji st.jobs })
    | none => (none, st)

/-! ### Upload validation (`routes/upload.py`, `FileValidator`) -/

/-- An incoming multipart file: its client filename and the content
attributes that the validators inspect once it has been saved. -/
structure Incoming where
  orig_filename : Name
  size : Nat
  headerOk : Bool
  pages : Option Nat
deriving DecidableEq

/-- `FileValidator.allowed_file`: the filename contains a dot and the part
after the last dot is `pdf` case-insensitively. -/
def allowed_file (n : Name) : Bool :=
  match lastIdxOf '.' n with
  | some i => decide ((n.drop (i + 1)).map Char.toLower = str "pdf")
  | none => false

/-- `FileValidator.validate_pdf` on a saved file, in the header-check
configuration: size above the limit, an empty file, or a bad header are
invalid. -/
def validate_pdf (maxSize : Nat) (f : DiskFile) : Bool :=
  !(decide (f.size > maxSize)) && !(decide (f.size = 0)) && f.headerOk

/-- `PDFProcessor.validate_pdf`: the PDF must be readable and have at least
one page. -/
def validate_pdf_structure (f : DiskFile) : Bool :=
  match f.pages with
  | some pc => !(decide (pc = 0))
  | none => false

/-- Outcome of processing one uploaded file. -/
inductive UploadOutcome where
  | added (fid : Name)
  | rejected
deriving DecidableEq

/-- The per-file body of the upload loop (`routes/upload.py`), given the
generated file id and the sanitised filename: save the bytes as
`fileID_safeName` into the session folder, then validate; a file failing
either validation is unlinked before its error is recorded and never reaches
the registry; a valid file is registered with its page count and size. -/
def process_upload_file (now : Int) (maxSize : Nat) (sid fid safeName : Name)
    (inc : Incoming) (st : FMState) : UploadOutcome × FMState :=
  if !(allowed_file inc.orig_filename) then (UploadOutcome.rejected, st)
  else
    let path := fid ++ '_' :: safeName
    let df : DiskFile := ⟨path, inc.size, inc.pages, inc.headerOk, false⟩
    let st1 := modifyFolder sid (putFile df) st
    if !(validate_pdf maxSize df) then
      (UploadOutcome.rejected, modifyFolder sid (delFile path) st1)
    else if !(validate_pdf_structure df) then
      (UploadOutcome.rejected, modifyFolder sid (delFile path) st1)
    else
      match df.pages with
      | some pc =>
        (UploadOutcome.added fid, add_file now sid fid path ⟨safeName, pc, inc.size⟩ st1)
      | none => (UploadOutcome.rejected, st1)

/-! ### Claim C4: thumbnail cache path and render-once behaviour -/

/-- C4: the thumbnail cache path is the deterministic function
`cacheDir/stem(path)_page_N.jpg`; after a successful first
`generate_thumbnail_on_demand` the rendering primitive has been invoked
exactly once, and a second request for the same `(path, page, cacheDir)`
returns the same path by the existence check alone, leaving the state (and
in particular the render count) unchanged whatever the rendering oracle
would do. -/
theorem C4_thumbnail_cache_once (ts : ThumbState) (pdfName : Name)
    (pageNum : Nat) (cacheDir : Name) (renderOk2 : Bool)
    (hmiss : cachePathOf pdfName pageNum cacheDir ∉ ts.cache) :
    generate_thumbnail_on_demand true pdfName pageNum cacheDir ts =
      (some (cachePathOf pdfName pageNum cacheDir),
        ⟨cachePathOf pdfName pageNum cacheDir :: ts.cache, ts.renders + 1⟩)
    ∧ generate_thumbnail_on_demand renderOk2 pdfName pageNum cacheDir
        ⟨cachePathOf pdfName pageNum cacheDir :: ts.cache, ts.renders + 1⟩ =
      (some (cachePathOf pdfName pageNum cacheDir),
        ⟨cachePathOf pdfName pageNum cacheDir :: ts.cache, ts.renders + 1⟩) := by
  constructor
  · simp [generate_thumbnail_on_demand, generate_page_thumbnail, hmiss]
  · simp [generate_thumbnail_on_demand]

/-- Witness for C4 at a concrete file, page and cache directory. -/
theorem C4_witness :
    (cachePathOf (str "abc_doc.pdf") 4 (str "cache") ∉ (⟨[], 0⟩ : ThumbState).cache)
    ∧ (generate_thumbnail_on_demand true (str "abc_doc.pdf") 4 (str "cache") ⟨[], 0⟩ =
        (some (cachePathOf (str "abc_doc.pdf") 4 (str "cache")),
          ⟨cachePathOf (str "abc_doc.pdf") 4 (str "cache") :: ([] : List Name), 0 + 1⟩)
      ∧ generate_thumbnail_on_demand false (str "abc_doc.pdf") 4 (str "cache")
          ⟨cachePathOf (str "abc_doc.pdf") 4 (str "cache") :: ([] : List Name), 0 + 1⟩ =
        (some (cachePathOf (str "abc_doc.pdf") 4 (str "cache")),
          ⟨cachePathOf (str "abc_doc.pdf") 4 (str "cache") :: ([] : List Name), 0 + 1⟩)) :=
  ⟨by decide, C4_thumbnail_cache_once ⟨[], 0⟩ (str "abc_doc.pdf") 4 (str "cache") false (by decide)⟩

/-! ### Claim C7: batch thumbnail requests above the 200-page limit -/

/-- A batch request of 201 consecutive pages. -/
def c7Pages : List Int := (List.range 201).map (fun i => (i : Int) + 1)

set_option maxRecDepth 8192 in
/-- C7 counterexample: a 201-page batch request against a 300-page file is
not rejected with a validation error; the route answers success, processing
only the first 200 pages (silent truncation). -/
theorem C7_counterexample :
    generate_batch_thumbnails 300 c7Pages =
      BatchResult.ok ((List.range 200).map (fun i => (i : Int) + 1))
    ∧ generate_batch_thumbnails 300 c7Pages ≠ BatchResult.err 400 := by
  constructor
  · decide
  · decide

/-- C7 (amended): a batch request whose page list exceeds the fixed maximum
of 200 pages is not rejected; it behaves exactly as the same request
truncated to its first 200 pages (validation included). -/
theorem C7_batch_truncation (page_count : Nat) (pages : List Int)
    (h : 200 < pages.length) :
    generate_batch_thumbnails page_count pages =
      generate_batch_thumbnails page_count (pages.take 200) := by
  have hne : pages ≠ [] := by
    intro h0
    rw [h0] at h
    simp at h
  have hlen : (pages.take 200).length = 200 := by
    rw [List.length_take]
    omega
  have hne2 : pages.take 200 ≠ [] := by
    intro h0
    rw [h0] at hlen
    simp at hlen
  simp only [generate_batch_thumbnails, if_neg hne, if_neg hne2, List.take_take]
  norm_num

set_option maxRecDepth 8192 in
/-- Witness for the amended C7 at the concrete 201-page request. -/
theorem C7_witness :
    200 < c7Pages.length
    ∧ generate_batch_thumbnails 300 c7Pages =
        generate_batch_thumbnails 300 (c7Pages.take 200) :=
  ⟨by decide, C7_batch_truncation 300 c7Pages (by decide)⟩

/-! ### Claim C2: merge page count and declaration order -/

theorem selectPages_eq (wm : Option Name) (doc : List α) (ps : List Int) :
    selectPages wm doc ps = ps.filterMap (fun p =>
      if 1 ≤ p ∧ p ≤ (doc.length : Int) then doc.get? (p - 1).toNat else none) := by
  unfold selectPages
  congr 1
  funext p
  split
  · cases wm <;> cases doc.get? (p - 1).toNat <;> rfl
  · rfl

theorem selectPages_in_range {α : Type} [Inhabited α] (wm : Option Name)
    (doc : List α) (ps : List Int)
    (h : ∀ p ∈ ps, 1 ≤ p ∧ p ≤ (doc.length : Int)) :
    selectPages wm doc ps = ps.map (fun p => doc.getD (p - 1).toNat default) := by
  rw [selectPages_eq]
  induction ps with
  | nil => rfl
  | cons p t ih =>
    have hp := h p (List.mem_cons_self p t)
    have hidx : (p - 1).toNat < doc.length := by omega
    have hget : doc.get? (p - 1).toNat = some (doc.getD (p - 1).toNat default) := by
      rw [List.get?_eq_getElem?, List.getElem?_eq_getElem hidx,
        List.getD_eq_getElem?_getD, List.getElem?_eq_getElem hidx]
      rfl
    simp only [List.filterMap_cons, if_pos hp, hget, List.map_cons]
    rw [ih (fun q hq => h q (List.mem_cons_of_mem p hq))]

/-- C2: when every selected page of every selection lies in
`[1, file page count]`, the merged output is exactly the declaration-order
page sequence (selections in request order, pages in declared order, with
repetitions kept), and the returned page total is the sum of the selection
lengths. -/
theorem C2_merge_order {α : Type} [Inhabited α] (wm : Option Name)
    (sources : List (List α × List Int))
    (h : ∀ s ∈ sources, ∀ p ∈ s.2, 1 ≤ p ∧ p ≤ (s.1.length : Int)) :
    (merge_pdfs wm sources).1 = specMergeOutput sources
    ∧ (merge_pdfs wm sources).2 = (sources.map (fun s => s.2.length)).sum := by
  have hmap : sources.map (fun s => selectPages wm s.1 s.2) =
      sources.map (fun s => s.2.map (fun p => s.1.getD (p - 1).toNat default)) :=
    List.map_congr_left (fun s hs => selectPages_in_range wm s.1 s.2 (h s hs))
  constructor
  · simp only [merge_pdfs, specMergeOutput, hmap]
  · simp only [merge_pdfs, hmap, List.length_flatten, List.map_map]
    congr 1
    apply List.map_congr_left
    intro s _
    simp

/-- The two-file example selection `[(A,[2,1]), (B,[1])]`. -/
def c2Sources : List (List Name × List Int) :=
  [([str "A1", str "A2"], [2, 1]), ([str "B1"], [1])]

/-- Witness for C2: the example request yields output pages `A2, A1, B1`
and total 3. -/
theorem C2_witness :
    (∀ s ∈ c2Sources, ∀ p ∈ s.2, 1 ≤ p ∧ p ≤ (s.1.length : Int))
    ∧ ((merge_pdfs none c2Sources).1 = specMergeOutput c2Sources
      ∧ (merge_pdfs none c2Sources).2 = (c2Sources.map (fun s => s.2.length)).sum) :=
  ⟨by decide, C2_merge_order none c2Sources (by decide)⟩

/-! ### Claim C8: DeleteFile on a disk-only file -/

/-- A state with no in-memory records but a conventionally named file on
disk in session `s1`. -/
def c8State : FMState :=
  { sessions := [],
    disk := [(str "s1", ⟨0, [⟨str "fid0_doc.pdf", 5, some 2, true, false⟩]⟩)] }

/-- C8 counterexample: the claim says `DeleteFile` on a disk-only
conventionally named file succeeds and removes the bytes exactly as for an
in-memory file; the code consults only the in-memory index, reports failure
and leaves the bytes in place. -/
theorem C8_counterexample :
    delete_file c8State (str "s1") (str "fid0") = (false, c8State)
    ∧ diskHas c8State (str "s1") (str "fid0_doc.pdf") = true := by
  constructor
  · decide
  · decide

/-- C8 (amended): `delete_file` consults only the in-memory index; for any
`(sessionID, fileID)` with no in-memory record — in particular for a file
whose bytes exist on disk under the naming convention after a restart — it
returns failure and leaves the whole state, disk included, untouched. -/
theorem C8_delete_memory_only (st : FMState) (sid fid : Name)
    (h : memFile st sid fid = none) : delete_file st sid fid = (false, st) := by
  unfold memFile at h
  cases hs : lookupA sid st.sessions with
  | none => simp [delete_file, hs]
  | some ss =>
    rw [hs] at h
    simp only [Option.some_bind] at h
    simp [delete_file, hs, h]

/-- Witness for the amended C8 at the concrete disk-only state. -/
theorem C8_witness :
    memFile c8State (str "s1") (str "fid0") = none
    ∧ delete_file c8State (str "s1") (str "fid0") = (false, c8State) :=
  ⟨by decide, C8_delete_memory_only c8State (str "s1") (str "fid0") (by decide)⟩

/-! ### Claim C5: the age-based sweep -/

deriving instance DecidableEq for Except

/-- A registry with one session created at time 0 (strictly in the past of
`now = 1`) whose directory exists on disk. -/
def c5State : FMState :=
  { sessions := [(str "s1", ⟨0, []⟩)], disk := [(str "s1", ⟨0, []⟩)] }

/-- C5: the claim says `cleanup_old_sessions` with `maxAge = 0` against a
session created strictly in the past removes its index entry and directory
and returns the count of sessions removed, the second sweep being a no-op.
The code does remove the entry and the directory, but the removal happens
inside iteration over `self.sessions.items()`, so the iterator's next
advance raises `RuntimeError: dictionary changed size during iteration`
(modelled by `Except.error ()`): the count is never returned and the
orphan phase is skipped.  Only once the registry is already empty does a
sweep run to completion, returning 0. -/
theorem C5_sweep_raises_instead_of_count :
    cleanup_old_sessions 1 0 c5State = (⟨[], []⟩, Except.error ())
    ∧ cleanup_old_sessions 1 0 ⟨[], []⟩ = (⟨[], []⟩, Except.ok 0) := by
  constructor
  · decide
  · decide

/-! ### Claim C9: job-status reconstruction from the merged root -/

/-- C9: for a job id with no in-memory record whose artifact exists under a
session subdirectory of the merged root, the status lookup returns a record
whose output filename is the artifact name with the `jobID_` prefix
stripped and whose total page count is the page-count primitive's answer or
zero when the primitive raises, never failing the lookup; a job id with no
record and no artifact answers `NotFound`. -/
theorem C9_job_status_reconstruction (st st2 : JobState) (jobId jobId2 sid rest : Name)
    (df : DiskFile)
    (hmem : lookupA jobId st.jobs = none)
    (hscan : jobScan jobId st.merged = some (sid, df))
    (hname : df.name = jobId ++ '_' :: rest)
    (hmem2 : lookupA jobId2 st2.jobs = none)
    (hscan2 : jobScan jobId2 st2.merged = none) :
    (get_job_status jobId st).1 =
      some ⟨sid, df.name, rest, df.pages.getD 0, str "completed"⟩
    ∧ get_job_status jobId2 st2 = (none, st2) := by
  have hdrop : df.name.drop (jobId.length + 1) = rest := by
    rw [hname]
    have : jobId ++ '_' :: rest = (jobId ++ ['_']) ++ rest := by simp
    rw [this]
    have hlen : jobId.length + 1 = (jobId ++ ['_']).length := by simp
    rw [hlen, List.drop_left]
  constructor
  · simp [get_job_status, hmem, hscan, restoreJob, hdrop]
  · simp [get_job_status, hmem2, hscan2]

/-- A merged root holding the artifact `JOB1_out.pdf` for session `s1`,
with a readable 4-page output. -/
def c9State : JobState :=
  { jobs := [], merged := [(str "s1", [⟨str "JOB1_out.pdf", 7, some 4, true, false⟩])] }

/-- A merged root with no artifact for the probed job id. -/
def c9StateMiss : JobState :=
  { jobs := [], merged := [(str "s1", [⟨str "OTHER_x.pdf", 7, some 4, true, false⟩])] }

/-- Witness for C9 at concrete states: the artifact `JOB1_out.pdf` is
reconstructed as `out.pdf` with 4 pages, and an unknown id is `NotFound`. -/
theorem C9_witness :
    (lookupA (str "JOB1") c9State.jobs = none
      ∧ jobScan (str "JOB1") c9State.merged =
          some (str "s1", ⟨str "JOB1_out.pdf", 7, some 4, true, false⟩)
      ∧ (str "JOB1_out.pdf" : Name) = str "JOB1" ++ '_' :: str "out.pdf"
      ∧ lookupA (str "NOPE") c9StateMiss.jobs = none
      ∧ jobScan (str "NOPE") c9StateMiss.merged = none)
    ∧ ((get_job_status (str "JOB1") c9State).1 =
        some ⟨str "s1", str "JOB1_out.pdf", str "out.pdf",
          (some 4 : Option Nat).getD 0, str "completed"⟩
      ∧ get_job_status (str "NOPE") c9StateMiss = (none, c9StateMiss)) :=
  ⟨⟨by decide, by decide, by decide, by decide, by decide⟩,
    C9_job_status_reconstruction c9State c9StateMiss (str "JOB1") (str "NOPE")
      (str "s1") (str "out.pdf") ⟨str "JOB1_out.pdf", 7, some 4, true, false⟩
      (by decide) (by decide) (by decide) (by decide) (by decide)⟩

/-! ### Claim C10: rejected uploads leave no trace -/

theorem putFile_fresh (df : DiskFile) (fs : List DiskFile)
    (h : ∀ d ∈ fs, d.name ≠ df.name) : putFile df fs = fs ++ [df] := by
  induction fs with
  | nil => rfl
  | cons d t ih =>
    have hd : d.name ≠ df.name := h d (List.mem_cons_self d t)
    simp only [putFile, if_neg hd, List.cons_append]
    rw [ih (fun x hx => h x (List.mem_cons_of_mem d hx))]

theorem delFile_append_fresh (n : Name) (fs : List DiskFile) (df : DiskFile)
    (h : ∀ d ∈ fs, d.name ≠ n) (hdf : df.name = n) :
    delFile n (fs ++ [df]) = fs := by
  induction fs with
  | nil => simp [delFile, hdf]
  | cons d t ih =>
    have hd : d.name ≠ n := h d (List.mem_cons_self d t)
    simp only [List.cons_append, delFile, if_neg hd, List.append_eq]
    rw [ih (fun x hx => h x (List.mem_cons_of_mem d hx))]

theorem mapA_mapA (k : Name) (f g : β → β) (l : List (Name × β)) :
    mapA k g (mapA k f l) = mapA k (fun v => g (f v)) l := by
  induction l with
  | nil => rfl
  | cons p t ih =>
    obtain ⟨k', v⟩ := p
    by_cases hk : k' = k
    · subst hk
      simp [mapA]
    · simp [mapA, if_neg hk, ih]

theorem mapA_eq_self (k : Name) (g : β → β) (l : List (Name × β)) (v : β)
    (hl : lookupA k l = some v) (hg : g v = v) : mapA k g l = l := by
  induction l with
  | nil => rfl
  | cons p t ih =>
    obtain ⟨k', v'⟩ := p
    by_cases hk : k' = k
    · subst hk
      simp [lookupA] at hl
      subst hl
      simp [mapA, hg]
    · simp only [lookupA, if_neg hk] at hl
      simp [mapA, if_neg hk, ih hl]

/-- C10: an uploaded file that is saved and then fails PDF validation (size
limit, empty file, bad header, or unreadable/empty structure) is unlinked
from disk before its error is recorded and never enters the session
registry: the per-file processing returns the rejection with the state
exactly as it was before the file arrived. -/
theorem C10_rejected_upload_no_trace (now : Int) (maxSize : Nat)
    (sid fid safeName : Name) (inc : Incoming) (st : FMState) (folder : Folder)
    (hf : lookupA sid st.disk = some folder)
    (hfresh : ∀ d ∈ folder.files, d.name ≠ fid ++ '_' :: safeName)
    (hallowed : allowed_file inc.orig_filename = true)
    (hbad : validate_pdf maxSize ⟨fid ++ '_' :: safeName, inc.size, inc.pages, inc.headerOk, false⟩ = false
        ∨ validate_pdf_structure ⟨fid ++ '_' :: safeName, inc.size, inc.pages, inc.headerOk, false⟩ = false) :
    process_upload_file now maxSize sid fid safeName inc st =
      (UploadOutcome.rejected, st) := by
  have hg : (Folder.mk folder.mtime (delFile (fid ++ '_' :: safeName)
      (putFile ⟨fid ++ '_' :: safeName, inc.size, inc.pages, inc.headerOk, false⟩ folder.files)) : Folder) = folder := by
    rw [putFile_fresh _ folder.files hfresh,
      delFile_append_fresh _ folder.files _ hfresh rfl]
  have hundo : modifyFolder sid (delFile (fid ++ '_' :: safeName))
      (modifyFolder sid (putFile ⟨fid ++ '_' :: safeName, inc.size, inc.pages, inc.headerOk, false⟩) st) = st := by
    simp only [modifyFolder]
    rw [mapA_mapA, mapA_eq_self sid _ st.disk folder hf hg]
  rcases hbad with hbad | hbad
  · simp [process_upload_file, hallowed, hbad, hundo]
  · by_cases hv : validate_pdf maxSize ⟨fid ++ '_' :: safeName, inc.size, inc.pages, inc.headerOk, false⟩
    · simp [process_upload_file, hallowed, hv, hbad, hundo]
    · simp only [Bool.not_eq_true] at hv
      simp [process_upload_file, hallowed, hv, hundo]

/-- A session folder on disk, empty in memory, receiving an upload. -/
def c10State : FMState := { sessions := [], disk := [(str "s1", ⟨0, []⟩)] }

/-- Witness for C10: an empty (size 0) file named `doc.pdf` is saved,
rejected, unlinked and leaves the state untouched. -/
theorem C10_witness :
    (lookupA (str "s1") c10State.disk = some ⟨0, []⟩
      ∧ allowed_file (str "doc.pdf") = true
      ∧ validate_pdf 50 ⟨str "f1" ++ '_' :: str "doc.pdf", 0, some 3, true, false⟩ = false)
    ∧ process_upload_file 1 50 (str "s1") (str "f1") (str "doc.pdf")
        ⟨str "doc.pdf", 0, true, some 3⟩ c10State = (UploadOutcome.rejected, c10State) :=
  ⟨⟨by decide, by decide, by decide⟩,
    C10_rejected_upload_no_trace 1 50 (str "s1") (str "f1") (str "doc.pdf")
      ⟨str "doc.pdf", 0, true, some 3⟩ c10State ⟨0, []⟩ (by decide)
      (by decide) (by decide) (Or.inl (by decide))⟩

/-! ### Claim C3: merge validation aborts before any write -/

theorem get_file_of_memFile (now : Int) (st : FMState) (sid fid : Name) (fi : FileInfo)
    (h : memFile st sid fid = some fi) : get_file now st sid fid = (some fi, st) := by
  unfold memFile at h
  cases hs : lookupA sid st.sessions with
  | none =>
    rw [hs] at h
    simp at h
  | some ss =>
    rw [hs] at h
    simp only [Option.some_bind] at h
    simp [get_file, hs, h]

theorem validateSelections_invalid (now : Int) (sid : Name) (sels : List Selection)
    (st : FMState)
    (hex : ∀ sel ∈ sels, ∃ fi, memFile st sid sel.file_id = some fi
      ∧ diskHas st sid fi.path = true)
    (hbad : ∃ sel ∈ sels, ∀ fi, memFile st sid sel.file_id = some fi →
      validate_page_range sel.pages fi.metadata.page_count = false) :
    ∀ acc, validateSelections now sid sels st acc = Except.error (400, st) := by
  induction sels with
  | nil =>
    rcases hbad with ⟨sel, hmem, _⟩
    simp at hmem
  | cons sel rest ih =>
    intro acc
    obtain ⟨fi, hm, hdk⟩ := hex sel (List.mem_cons_self sel rest)
    have hg := get_file_of_memFile now st sid sel.file_id fi hm
    by_cases hval : validate_page_range sel.pages fi.metadata.page_count = true
    · rcases hbad with ⟨selb, hselb, hb⟩
      rcases List.mem_cons.mp hselb with heq | hrest
      · subst heq
        exact absurd (hb fi hm) (by simp [hval])
      · have hrec := ih (fun s hs => hex s (List.mem_cons_of_mem sel hs))
          ⟨selb, hrest, hb⟩ ((fi.path, sel.pages) :: acc)
        simp only [validateSelections, hg]
        simp [hdk, hval, hrec]
    · simp only [Bool.not_eq_true] at hval
      simp only [validateSelections, hg]
      simp [hdk, hval]

/-- C3: a merge request all of whose selections reference files present in
the registry (with their bytes on disk) but containing some selection whose
page list is empty, has a non-integer entry, or has a page outside
`[1, file page count]`, is rejected with the 400 validation error before any
merging begins, and the merged root is left exactly as it was: no output
file, partial or complete, is created. -/
theorem C3_merge_validation_no_output (now : Int) (jobId : Name) (req : MergeReqM)
    (st : FMState) (merged : List Name)
    (hex : ∀ sel ∈ req.selections, ∃ fi,
      memFile st req.session_id sel.file_id = some fi
      ∧ diskHas st req.session_id fi.path = true)
    (hbad : ∃ sel ∈ req.selections, ∀ fi,
      memFile st req.session_id sel.file_id = some fi →
      validate_page_range sel.pages fi.metadata.page_count = false) :
    merge_route now jobId req st merged = (MergeResult.err 400, st, merged) := by
  have h := validateSelections_invalid now req.session_id req.selections st hex hbad []
  simp [merge_route, h]

/-- A registry holding the 2-page file `f1` of session `s1`, in memory and
on disk. -/
def c3State : FMState :=
  { sessions := [(str "s1", ⟨0, [(str "f1", ⟨str "f1_doc.pdf", ⟨str "doc.pdf", 2, 9⟩⟩)]⟩)],
    disk := [(str "s1", ⟨0, [⟨str "f1_doc.pdf", 9, some 2, true, false⟩]⟩)] }

/-- A merge request selecting page 3 of the 2-page file `f1`. -/
def c3Req : MergeReqM := ⟨str "s1", [⟨str "f1", [PageVal.int 3]⟩], str "out"⟩

/-- Witness for C3: the out-of-range request against `c3State` is answered
400 with the merged root untouched. -/
theorem C3_witness :
    ((∀ sel ∈ c3Req.selections, ∃ fi,
        memFile c3State c3Req.session_id sel.file_id = some fi
        ∧ diskHas c3State c3Req.session_id fi.path = true)
      ∧ (∃ sel ∈ c3Req.selections, ∀ fi,
          memFile c3State c3Req.session_id sel.file_id = some fi →
          validate_page_range sel.pages fi.metadata.page_count = false))
    ∧ merge_route 1 (str "J") c3Req c3State [] = (MergeResult.err 400, c3State, []) := by
  have hex : ∀ sel ∈ c3Req.selections, ∃ fi,
      memFile c3State c3Req.session_id sel.file_id = some fi
      ∧ diskHas c3State c3Req.session_id fi.path = true := by
    intro sel hsel
    have hone : sel = ⟨str "f1", [PageVal.int 3]⟩ := by
      simpa [c3Req] using hsel
    subst hone
    exact ⟨⟨str "f1_doc.pdf", ⟨str "doc.pdf", 2, 9⟩⟩, by decide, by decide⟩
  have hbad : ∃ sel ∈ c3Req.selections, ∀ fi,
      memFile c3State c3Req.session_id sel.file_id = some fi →
      validate_page_range sel.pages fi.metadata.page_count = false := by
    refine ⟨⟨str "f1", [PageVal.int 3]⟩, by simp [c3Req], ?_⟩
    intro fi hfi
    have h0 : memFile c3State c3Req.session_id (str "f1") =
        some ⟨str "f1_doc.pdf", ⟨str "doc.pdf", 2, 9⟩⟩ := by decide
    rw [h0] at hfi
    injection hfi with h1
    subst h1
    decide
  exact ⟨⟨hex, hbad⟩, C3_merge_validation_no_output 1 (str "J") c3Req c3State [] hex hbad⟩

/-! ### Claim C6: DeleteFile on an indexed file -/

theorem find?_of_filter_single (p : DiskFile → Bool) (l : List DiskFile) (x : DiskFile)
    (h : l.filter p = [x]) : l.find? p = some x := by
  induction l with
  | nil => simp at h
  | cons a t ih =>
    by_cases hpa : p a = true
    · rw [List.filter_cons_of_pos hpa] at h
      rw [List.cons.injEq] at h
      rw [List.find?_cons_of_pos _ hpa, h.1]
    · rw [List.filter_cons_of_neg (by simpa using hpa)] at h
      rw [List.find?_cons_of_neg _ (by simpa using hpa)]
      exact ih h

theorem mem_delFile (n : Name) (l : List DiskFile) (d : DiskFile)
    (h : d ∈ delFile n l) : d ∈ l := by
  induction l with
  | nil => simp [delFile] at h
  | cons a t ih =>
    simp only [delFile] at h
    by_cases ha : a.name = n
    · rw [if_pos ha] at h
      exact List.mem_cons_of_mem a h
    · rw [if_neg ha] at h
      rcases List.mem_cons.mp h with heq | hmem
      · exact heq ▸ List.mem_cons_self a t
      · exact List.mem_cons_of_mem a (ih hmem)

theorem delFile_no_match (n : Name) (l : List DiskFile) (df : DiskFile)
    (h : l.filter (fun d => decide (d.name = n)) = [df]) :
    ∀ d ∈ delFile n l, d.name ≠ n := by
  induction l with
  | nil => simp [delFile]
  | cons a t ih =>
    by_cases ha : a.name = n
    · rw [List.filter_cons_of_pos (by simpa using ha)] at h
      rw [List.cons.injEq] at h
      have hnil : ∀ d ∈ t, ¬(d.name = n) := by
        intro d hd hdn
        have := List.filter_eq_nil_iff.mp h.2 d hd
        simp [hdn] at this
      simp only [delFile, if_pos ha]
      exact fun d hd => hnil d hd
    · rw [List.filter_cons_of_neg (by simpa using ha)] at h
      simp only [delFile, if_neg ha]
      intro d hd
      rcases List.mem_cons.mp hd with heq | hmem
      · exact heq ▸ ha
      · exact ih h d hmem

theorem getFileScan_none (now : Int) (sid fid : Name) (files : List DiskFile)
    (st : FMState)
    (h : ∀ d ∈ files, (fileGlobMatch fid d.name && isPdfIC d.name) = false) :
    getFileScan now sid fid files st = (none, st) := by
  induction files with
  | nil => rfl
  | cons d t ih =>
    have hd := h d (List.mem_cons_self d t)
    simp only [getFileScan, hd]
    simp only [Bool.false_eq_true, if_false]
    exact ih (fun x hx => h x (List.mem_cons_of_mem d hx))

/-- C6: for a file present in the in-memory index whose backing bytes exist
on disk (uniquely, under its stored path) — when the unlink succeeds,
`delete_file` removes both the bytes and the index entry and a subsequent
`get_file` answers `NotFound` rather than reconstructing a record; when the
unlink raises, `delete_file` reports failure and leaves the whole state,
index entry included, untouched. -/
theorem C6_delete_file (now : Int) (st : FMState) (sid fid : Name) (ss : Session)
    (fi : FileInfo) (folder : Folder) (df : DiskFile)
    (hs : lookupA sid st.sessions = some ss)
    (hnd : (ss.files.map Prod.fst).Nodup)
    (hfi : lookupA fid ss.files = some fi)
    (hd : lookupA sid st.disk = some folder)
    (hone : folder.files.filter (fun d => decide (d.name = fi.path)) = [df])
    (hng : ∀ d ∈ folder.files, d.name ≠ fi.path →
      (fileGlobMatch fid d.name && isPdfIC d.name) = false) :
    (df.locked = true → delete_file st sid fid = (false, st))
    ∧ (df.locked = false →
        (delete_file st sid fid).1 = true
        ∧ diskHas (delete_file st sid fid).2 sid fi.path = false
        ∧ memFile (delete_file st sid fid).2 sid fid = none
        ∧ get_file now (delete_file st sid fid).2 sid fid =
            (none, (delete_file st sid fid).2)) := by
  have hfind : folder.files.find? (fun d => decide (d.name = fi.path)) = some df :=
    find?_of_filter_single _ _ _ hone
  constructor
  · intro hl
    simp [delete_file, hs, hfi, hd, hfind, hl]
  · intro hl
    have hdel : delete_file st sid fid =
        (true, eraseSessionFile (modifyFolder sid (delFile fi.path) st) sid fid) := by
      simp [delete_file, hs, hfi, hd, hfind, hl]
    have hnomatch : ∀ d ∈ delFile fi.path folder.files, d.name ≠ fi.path :=
      delFile_no_match fi.path folder.files df hone
    have hs' : lookupA sid
        (eraseSessionFile (modifyFolder sid (delFile fi.path) st) sid fid).sessions =
        some ⟨ss.created_at, eraseA fid ss.files⟩ := by
      show lookupA sid (mapA sid _ st.sessions) = _
      rw [lookupA_mapA_self sid _ st.sessions ss hs]
    have hd' : lookupA sid
        (eraseSessionFile (modifyFolder sid (delFile fi.path) st) sid fid).disk =
        some ⟨folder.mtime, delFile fi.path folder.files⟩ := by
      show lookupA sid (mapA sid _ st.disk) = _
      rw [lookupA_mapA_self sid _ st.disk folder hd]
    have hmem' : memFile
        (eraseSessionFile (modifyFolder sid (delFile fi.path) st) sid fid) sid fid = none := by
      unfold memFile
      rw [hs']
      simp only [Option.some_bind]
      exact lookupA_eraseA_self fid ss.files hnd
    rw [hdel]
    refine ⟨rfl, ?_, ?_, ?_⟩
    · simp only [diskHas, hd']
      rw [List.any_eq_false]
      intro d hdm
      simpa using hnomatch d hdm
    · exact hmem'
    · have hscan := getFileScan_none now sid fid (delFile fi.path folder.files)
        (eraseSessionFile (modifyFolder sid (delFile fi.path) st) sid fid)
        (fun d hdm => hng d (mem_delFile fi.path folder.files d hdm) (hnomatch d hdm))
      unfold memFile at hmem'
      rw [hs'] at hmem'
      simp only [Option.some_bind] at hmem'
      simp [get_file, hs', hmem', get_session_folder, hd', hscan]

/-- A registry holding the indexed file `f1` of session `s1` with its bytes
on disk, plus an unrelated file. -/
def c6State : FMState :=
  { sessions := [(str "s1", ⟨0, [(str "f1", ⟨str "f1_doc.pdf", ⟨str "doc.pdf", 2, 9⟩⟩)]⟩)],
    disk := [(str "s1", ⟨0, [⟨str "g2_x.pdf", 3, some 1, true, false⟩,
      ⟨str "f1_doc.pdf", 9, some 2, true, false⟩]⟩)] }

/-- Witness for C6 at the concrete state (the stored file's unlink
succeeds: its `locked` flag is false). -/
theorem C6_witness :
    (lookupA (str "s1") c6State.sessions =
        some ⟨0, [(str "f1", ⟨str "f1_doc.pdf", ⟨str "doc.pdf", 2, 9⟩⟩)]⟩
      ∧ lookupA (str "s1") c6State.disk =
        some ⟨0, [⟨str "g2_x.pdf", 3, some 1, true, false⟩,
          ⟨str "f1_doc.pdf", 9, some 2, true, false⟩]⟩)
    ∧ ((false = true → delete_file c6State (str "s1") (str "f1") = (false, c6State))
      ∧ (false = false →
          (delete_file c6State (str "s1") (str "f1")).1 = true
          ∧ diskHas (delete_file c6State (str "s1") (str "f1")).2 (str "s1") (str "f1_doc.pdf") = false
          ∧ memFile (delete_file c6State (str "s1") (str "f1")).2 (str "s1") (str "f1") = none
          ∧ get_file 1 (delete_file c6State (str "s1") (str "f1")).2 (str "s1") (str "f1") =
              (none, (delete_file c6State (str "s1") (str "f1")).2))) :=
  ⟨⟨by decide, by decide⟩,
    C6_delete_file 1 c6State (str "s1") (str "f1")
      ⟨0, [(str "f1", ⟨str "f1_doc.pdf", ⟨str "doc.pdf", 2, 9⟩⟩)]⟩
      ⟨str "f1_doc.pdf", ⟨str "doc.pdf", 2, 9⟩⟩
      ⟨0, [⟨str "g2_x.pdf", 3, some 1, true, false⟩,
        ⟨str "f1_doc.pdf", 9, some 2, true, false⟩]⟩
      ⟨str "f1_doc.pdf", 9, some 2, true, false⟩
      (by decide) (by decide) (by decide) (by decide) (by decide) (by decide)⟩

/-! ### Claim C1: listing after a restart -/

/-- An upload into a session: generated file id, client filename stem (the
part before `.pdf`), page count and byte size. -/
structure UpEntry where
  fid : Name
  base : Name
  pc : Nat
  sz : Nat
deriving DecidableEq

/-- Stored name of an upload: `fileID_filename.pdf`. -/
def upName (e : UpEntry) : Name := e.fid ++ '_' :: (e.base ++ str ".pdf")

/-- The bytes of an upload as they sit in the session folder. -/
def upDiskFile (e : UpEntry) : DiskFile := ⟨upName e, e.sz, some e.pc, true, false⟩

/-- The in-memory record created for an upload by the upload route. -/
def upFileInfo (e : UpEntry) : FileInfo := ⟨upName e, ⟨e.base ++ str ".pdf", e.pc, e.sz⟩⟩

/-- Registry state after the uploads of `L` into one session: in-memory
records and on-disk bytes agree. -/
def preFM (t0 mt : Int) (sid : Name) (L : List UpEntry) : FMState :=
  { sessions := [(sid, ⟨t0, L.map (fun e => (e.fid, upFileInfo e))⟩)],
    disk := [(sid, ⟨mt, L.map upDiskFile⟩)] }

/-- A process restart: the in-memory state is cleared, the disk kept. -/
def restartFM (st : FMState) : FMState := ⟨[], st.disk⟩

/-- A file id that round-trips through the `fileID_filename` encoding: it is
nonempty and contains neither the underscore separator nor a dot. -/
def goodEntry (e : UpEntry) : Prop := e.fid ≠ [] ∧ '_' ∉ e.fid ∧ '.' ∉ e.fid

instance goodEntryDec (e : UpEntry) : Decidable (goodEntry e) :=
  inferInstanceAs (Decidable (e.fid ≠ [] ∧ '_' ∉ e.fid ∧ '.' ∉ e.fid))

theorem upName_decomp (e : UpEntry) :
    upName e = (e.fid ++ '_' :: e.base) ++ str ".pdf" := by
  simp [upName]

theorem restoreFromDisk_good (e : UpEntry) (h : goodEntry e) :
    restoreFromDisk (upDiskFile e) = some (e.fid, upFileInfo e) := by
  obtain ⟨hne, hnu, hnd⟩ := h
  have hprene : e.fid ++ '_' :: e.base ≠ [] := by simp
  have hstem : pyStem (upName e) = e.fid ++ '_' :: e.base := by
    rw [upName_decomp]
    exact pyStem_pdf _ hprene
  have hsuf : pySuffix (upName e) = str ".pdf" := by
    rw [upName_decomp]
    exact pySuffix_pdf _ hprene
  have hglob : globPdf (upName e) = true := by
    unfold globPdf
    rw [upName_decomp]
    rw [endsWith_append_self]
    cases hfid : e.fid with
    | nil => exact absurd hfid hne
    | cons c f =>
      have hc : c ≠ '.' := by
        intro hc
        exact hnd (by rw [hfid, hc]; exact List.mem_cons_self '.' f)
      simp [hc]
  have hmem : '_' ∈ pyStem (upName e) := by
    rw [hstem]
    exact List.mem_append.mpr (Or.inr (List.mem_cons_self '_' e.base))
  have hsplit : pysplit '_' (pyStem (upName e)) = e.fid :: pysplit '_' e.base := by
    rw [hstem]
    exact pysplit_sep_split '_' e.fid e.base hnu
  have hjoin : joinWith '_' (pysplit '_' e.base) = e.base := joinWith_pysplit '_' e.base
  show restoreFromDisk ⟨upName e, e.sz, some e.pc, true, false⟩ = _
  unfold restoreFromDisk
  simp only [hglob, if_true, hmem, if_pos, hsplit, hsuf, List.headD_cons,
    List.tail_cons, hjoin]
  rfl

theorem restoreScan_aux (L : List UpEntry) (acc : List (Name × FileInfo))
    (hg : ∀ e ∈ L, goodEntry e)
    (hacc : ∀ e ∈ L, lookupA e.fid acc = none)
    (hnd : (L.map (fun e => e.fid)).Nodup) :
    (L.map upDiskFile).foldl (fun acc df =>
      match restoreFromDisk df with
      | some (fid, fi) => setA fid fi acc
      | none => acc) acc = acc ++ L.map (fun e => (e.fid, upFileInfo e)) := by
  induction L generalizing acc with
  | nil => simp
  | cons e L ih =>
    simp only [List.map_cons, List.foldl_cons,
      restoreFromDisk_good e (hg e (List.mem_cons_self e L))]
    rw [setA_fresh e.fid (upFileInfo e) acc (hacc e (List.mem_cons_self e L))]
    simp only [List.map_cons, List.nodup_cons] at hnd
    have hg' : ∀ x ∈ L, goodEntry x := fun x hx => hg x (List.mem_cons_of_mem e hx)
    have hacc' : ∀ x ∈ L, lookupA x.fid (acc ++ [(e.fid, upFileInfo e)]) = none := by
      intro x hx
      refine lookupA_append_none x.fid acc [(e.fid, upFileInfo e)]
        (hacc x (List.mem_cons_of_mem e hx)) ?_
      have hxe : e.fid ≠ x.fid := by
        intro hfe
        exact hnd.1 (hfe ▸ List.mem_map_of_mem (fun e => e.fid) hx)
      simp [lookupA, hxe]
    rw [ih (acc ++ [(e.fid, upFileInfo e)]) hg' hacc' hnd.2]
    simp

theorem restoreScan_good (L : List UpEntry)
    (hg : ∀ e ∈ L, goodEntry e)
    (hnd : (L.map (fun e => e.fid)).Nodup) :
    restoreScan (L.map upDiskFile) = L.map (fun e => (e.fid, upFileInfo e)) := by
  unfold restoreScan
  rw [restoreScan_aux L [] hg (fun _ _ => rfl) hnd]
  simp

/-- C1 (amended): for a session whose uploads all received file ids that are
nonempty and free of underscores and dots — in particular any id over the
URL-safe base64 alphabet that happens to contain no underscore — listing
the session after a restart (in-memory state cleared, disk kept) rebuilds
exactly the `(fileID, filename, pageCount)` triples listed before the
restart.  Ids containing an underscore (which `generate_file_id` can emit)
are excluded: the counterexample shows they are mis-split. -/
theorem C1_restart_listing (now t0 mt : Int) (sid : Name) (L : List UpEntry)
    (hg : ∀ e ∈ L, goodEntry e)
    (hnd : (L.map (fun e => e.fid)).Nodup) :
    listTriples (get_session_files now (restartFM (preFM t0 mt sid L)) sid).1 =
      listTriples (get_session_files now (preFM t0 mt sid L) sid).1 := by
  have hscan := restoreScan_good L hg hnd
  have hpost : (get_session_files now (restartFM (preFM t0 mt sid L)) sid).1 =
      L.map (fun e => (e.fid, upFileInfo e)) := by
    simp [get_session_files, restartFM, preFM, lookupA, hscan]
  have hpre : (get_session_files now (preFM t0 mt sid L) sid).1 =
      L.map (fun e => (e.fid, upFileInfo e)) := by
    cases L with
    | nil => simp [get_session_files, preFM, lookupA, restoreScan]
    | cons e L' =>
      have hne : ((e :: L').map (fun x => (x.fid, upFileInfo x))) ≠ [] := by simp
      simp [get_session_files, preFM, lookupA, hne]
  rw [hpost, hpre]

/-- Sixteen random bytes whose URL-safe base64 encoding begins with an
underscore. -/
def fcBytes : List Nat := 252 :: List.replicate 15 0

/-- A file id the generator itself can emit that contains an underscore. -/
def badFid : Name := generate_file_id fcBytes

/-- One session holding one upload whose generated file id is `badFid`,
in memory and on disk under the naming convention. -/
def c1BadState : FMState :=
  { sessions := [(str "s1",
      ⟨0, [(badFid, ⟨badFid ++ '_' :: str "doc.pdf", ⟨str "doc.pdf", 3, 100⟩⟩)]⟩)],
    disk := [(str "s1",
      ⟨0, [⟨badFid ++ '_' :: str "doc.pdf", 100, some 3, true, false⟩]⟩)] }

set_option maxRecDepth 16384 in
/-- C1 counterexample: `generate_file_id` can emit an id containing the
underscore separator (sixteen bytes exist whose encoding is such an id);
for a session holding a file under such an id, the listing after a restart
does not contain the original `(fileID, filename, pageCount)` triple — the
stem is split at the wrong underscore — so the claimed set equality fails. -/
theorem C1_counterexample :
    fcBytes.length = 16
    ∧ fcBytes.all (fun b => decide (b < 256)) = true
    ∧ (badFid, str "doc.pdf", 3) ∈ listTriples (get_session_files 1 c1BadState (str "s1")).1
    ∧ (badFid, str "doc.pdf", 3) ∉
        listTriples (get_session_files 1 (restartFM c1BadState) (str "s1")).1
    ∧ listTriples (get_session_files 1 (restartFM c1BadState) (str "s1")).1 ≠
        listTriples (get_session_files 1 c1BadState (str "s1")).1 :=
  ⟨by decide, by decide, by decide, by decide, by decide⟩

/-- Two uploads with underscore-free ids (`my_file.pdf` keeps its inner
underscore in the filename position). -/
def c1GoodList : List UpEntry :=
  [⟨str "abc", str "doc", 3, 10⟩, ⟨str "xyz", str "my_file", 2, 5⟩]

set_option maxRecDepth 16384 in
/-- Witness for the amended C1 at two concrete uploads. -/
theorem C1_witness :
    (∀ e ∈ c1GoodList, goodEntry e)
    ∧ (c1GoodList.map (fun e => e.fid)).Nodup
    ∧ listTriples
        (get_session_files 1 (restartFM (preFM 0 0 (str "s1") c1GoodList)) (str "s1")).1 =
      listTriples (get_session_files 1 (preFM 0 0 (str "s1") c1GoodList) (str "s1")).1 :=
  ⟨by decide, by decide, C1_restart_listing 1 0 0 (str "s1") c1GoodList (by decide) (by decide)⟩

end PdfJoiner
